import Mathlib

/-!
Verification of the query-shaping layer (pagination, filtering, sorting) and the
Item entity service of the repository, as a shallow embedding in Lean.

Sources embedded:
- `src/app/common/pagination.py` (PaginationParams, PagedResponse, paginate)
- `src/app/common/sorting.py` (SortOrder, SortParams, ItemSortParams)
- `src/app/common/filtering.py` (FilterParams, ItemFilterParams)
- `src/app/items/service.py` (ItemService)
- `src/app/items/schemas.py` (ItemUpdate validation)
- `src/app/items/models.py` (Item model)

A SQLAlchemy `Select` is embedded as a data structure holding the accumulated
predicates, order-by directives and the offset/limit window; its semantics on a
concrete table (a list of rows) is `runSelect`.  Database sessions are embedded
as explicit lists of rows threaded through the service operations.
-/

/-- Value of a model column as seen by a query: SQL NULL is `vNull`. -/
inductive FieldVal where
  | vInt (n : Int)
  | vStr (s : String)
  | vBool (b : Bool)
  | vNull
deriving DecidableEq, Repr

/-- Static description of an ORM model class: its attribute names
(`hasattr`) and how a row yields the value of a named column. -/
structure ModelMeta (α : Type) where
  fields : List String
  getField : String → α → FieldVal

/-- Embedding of a SQLAlchemy `Select` statement: accumulated filter
predicates, accumulated order-by directives (field name, descending flag),
and the offset/limit window.  `filter` appends to `preds`, `order_by`
appends to `order`, `offset`/`limit` replace `off`/`lim`. -/
structure SelectQ (α : Type) where
  preds : List (α → Bool)
  order : List (String × Bool)
  off : Nat
  lim : Option Nat

/-- The fresh query `select(Model)`: no predicate, no ordering, no window. -/
def SelectQ.base (α : Type) : SelectQ α := ⟨[], [], 0, none⟩

/-- A row matches a query when it satisfies every accumulated predicate. -/
def matchesPreds (q : SelectQ α) (r : α) : Bool := q.preds.all (fun p => p r)

/-- Boolean comparison between column values used to order rows; SQL NULLs
sort first, values of distinct kinds are ordered by kind. -/
def FieldVal.leB : FieldVal → FieldVal → Bool
  | .vNull, _ => true
  | _, .vNull => false
  | .vInt m, .vInt n => decide (m ≤ n)
  | .vInt _, _ => true
  | _, .vInt _ => false
  | .vStr s, .vStr t => !(decide (t < s))
  | .vStr _, _ => true
  | _, .vStr _ => false
  | .vBool x, .vBool y => !x || y

/-- Row comparison induced by a list of order-by directives, earliest
directive first, each directive ascending or descending on one column. -/
def rowLe (model : ModelMeta α) : List (String × Bool) → α → α → Bool
  | [], _, _ => true
  | d :: rest, a, b =>
    let va := model.getField d.1 a
    let vb := model.getField d.1 b
    if va = vb then rowLe model rest a b
    else if d.2 then FieldVal.leB vb va else FieldVal.leB va vb

/-- The offset/limit window applied after filtering and ordering. -/
def applyWindow (off : Nat) (lim : Option Nat) (rows : List α) : List α :=
  match lim with
  | none => rows.drop off
  | some l => (rows.drop off).take l

/-- Ordering step of executing a `Select`: a query with no order-by
directive returns rows in table order, otherwise rows are sorted by the
directives. -/
def orderRows (model : ModelMeta α) (dirs : List (String × Bool)) (rows : List α) : List α :=
  match dirs with
  | [] => rows
  | _ :: _ => rows.mergeSort (rowLe model dirs)

/-- Semantics of executing a `Select` against a table: filter, then order
(a query with no order-by directive returns rows in table order), then
window. -/
def runSelect (model : ModelMeta α) (q : SelectQ α) (db : List α) : List α :=
  applyWindow q.off q.lim (orderRows model q.order (db.filter (matchesPreds q)))

/-- The single error kind raised by request-model validation. -/
inductive ValidationError where
  | validationError
deriving DecidableEq, Repr

/-- `PaginationParams` of `src/app/common/pagination.py`: page number and
page size, held after successful validation. -/
structure PaginationParams where
  page : Nat
  page_size : Nat
deriving DecidableEq, Repr

/-- Pydantic construction of `PaginationParams`: `page` has `ge=1`,
`page_size` has `ge=1, le=100`; out-of-range input raises a
`ValidationError`. -/
def PaginationParams.validate (page page_size : Int) :
    Except ValidationError PaginationParams :=
  if 1 ≤ page ∧ 1 ≤ page_size ∧ page_size ≤ 100 then
    .ok ⟨page.toNat, page_size.toNat⟩
  else
    .error .validationError

/-- Derived property `skip`: `(page - 1) * page_size`. -/
def PaginationParams.skip (p : PaginationParams) : Nat := (p.page - 1) * p.page_size

/-- Derived property `limit`: `page_size`. -/
def PaginationParams.limit (p : PaginationParams) : Nat := p.page_size

/-- The bounds `PaginationParams` validation enforces. -/
def PaginationParams.Valid (p : PaginationParams) : Prop :=
  1 ≤ p.page ∧ 1 ≤ p.page_size ∧ p.page_size ≤ 100

instance (p : PaginationParams) : Decidable p.Valid := by
  unfold PaginationParams.Valid; infer_instance

/-- `PagedResponse` of `src/app/common/pagination.py`. -/
structure PagedResponse (α : Type) where
  items : List α
  total : Nat
  page : Nat
  page_size : Nat
  total_pages : Nat
deriving DecidableEq, Repr

/-- `PagedResponse.create`: packages items and total, computing
`total_pages = (total + page_size - 1) // page_size`. -/
def PagedResponse.create (items : List α) (total : Nat) (pagination : PaginationParams) :
    PagedResponse α :=
  { items := items
    total := total
    page := pagination.page
    page_size := pagination.page_size
    total_pages := (total + pagination.page_size - 1) / pagination.page_size }

/-- The count query of `paginate`:
`select(func.count()).select_from(query.subquery())`, counting every row the
subquery produces. -/
def countSubquery (model : ModelMeta α) (q : SelectQ α) (db : List α) : Nat :=
  (runSelect model q db).length

/-- `paginate` of `src/app/common/pagination.py`: executes the count query,
then the base query with the pagination window applied
(`query.offset(pagination.skip).limit(pagination.limit)`), and returns
`(items, total)`. -/
def paginate (model : ModelMeta α) (db : List α) (q : SelectQ α) (pagination : PaginationParams) :
    List α × Nat :=
  let total := countSubquery model q db
  let items := runSelect model { q with off := pagination.skip, lim := some pagination.limit } db
  (items, total)

/-- `SortOrder` of `src/app/common/sorting.py`. -/
inductive SortOrder where
  | asc
  | desc
deriving DecidableEq, Repr

/-- `SortParams` of `src/app/common/sorting.py`; the constructor defaults
are `sort_by=None` and `sort_order=SortOrder.ASC`. -/
structure SortParams where
  sort_by : Option String := none
  sort_order : SortOrder := SortOrder.asc
deriving DecidableEq, Repr

/-- `SortParams.apply`: when `sort_by` is truthy (a non-empty name) and is an
attribute of the model, appends an order-by directive in the requested
direction; otherwise returns the query unchanged. -/
def SortParams.apply (sp : SortParams) (q : SelectQ α) (model : ModelMeta α) : SelectQ α :=
  match sp.sort_by with
  | none => q
  | some name =>
    if name ≠ "" ∧ name ∈ model.fields then
      { q with order := q.order ++ [(name, decide (sp.sort_order = SortOrder.desc))] }
    else q

/-- `ItemSortParams` of `src/app/common/sorting.py`: the subclass whose
constructor defaults are `sort_by="created_at"` and
`sort_order=SortOrder.DESC`. -/
structure ItemSortParams where
  sort_by : Option String := some "created_at"
  sort_order : SortOrder := SortOrder.desc
deriving DecidableEq, Repr

/-- Inheritance: an `ItemSortParams` is a `SortParams` with its fields. -/
def ItemSortParams.toSortParams (sp : ItemSortParams) : SortParams :=
  { sort_by := sp.sort_by, sort_order := sp.sort_order }

/-- Generic `FilterParams` of `src/app/common/filtering.py`: the instance
dictionary, in definition order, each attribute either absent (`None`) or a
held value. -/
structure FilterParams where
  fields : List (String × Option FieldVal)

/-- `FilterParams.apply`: for each held attribute whose value is not `None`
and whose name is an attribute of the model, appends the equality predicate
`getattr(model, name) == value`; other attributes are skipped silently. -/
def FilterParams.apply (fp : FilterParams) (q : SelectQ α) (model : ModelMeta α) : SelectQ α :=
  fp.fields.foldl
    (fun acc fv =>
      match fv.2 with
      | none => acc
      | some v =>
        if fv.1 ∈ model.fields then
          { acc with preds := acc.preds ++ [fun r => decide (model.getField fv.1 r = v)] }
        else acc)
    q

/-- `Item` model of `src/app/items/models.py`, as the Python object the
service mutates: columns that are nullable at object level are `Option`
(a stored row normally has `title` and `is_active` present). -/
structure Item where
  id : Nat
  title : Option String
  description : Option String
  is_active : Option Bool
  created_at : Nat
  updated_at : Nat
deriving DecidableEq, Repr

/-- Column access for the `Item` model. -/
def Item.getFieldVal (name : String) (it : Item) : FieldVal :=
  if name = "id" then .vInt it.id
  else if name = "title" then
    match it.title with
    | some s => .vStr s
    | none => .vNull
  else if name = "description" then
    match it.description with
    | some s => .vStr s
    | none => .vNull
  else if name = "is_active" then
    match it.is_active with
    | some b => .vBool b
    | none => .vNull
  else if name = "created_at" then .vInt it.created_at
  else if name = "updated_at" then .vInt it.updated_at
  else .vNull

/-- The `Item` model class: its attribute names and column access. -/
def itemModel : ModelMeta Item :=
  ⟨["id", "title", "description", "is_active", "created_at", "updated_at"],
   Item.getFieldVal⟩

/-- Is `needle` a contiguous substring of `hay` (as character lists)? -/
def charsContain (hay needle : List Char) : Bool :=
  match hay with
  | [] => needle.isEmpty
  | _ :: t => needle.isPrefixOf hay || charsContain t needle

/-- SQL `column ILIKE %pat%` on a possibly NULL text column:
case-insensitive substring match; a NULL column matches nothing. -/
def ilikeContains (column : Option String) (pat : String) : Bool :=
  match column with
  | none => false
  | some s => charsContain s.toLower.toList pat.toLower.toList

/-- `ItemFilterParams` of `src/app/common/filtering.py`: optional `title`
(partial, case-insensitive) and optional `is_active` (exact). -/
structure ItemFilterParams where
  title : Option String := none
  is_active : Option Bool := none
deriving DecidableEq, Repr

/-- `ItemFilterParams.apply` (the subclass override): appends
`Item.title ILIKE %title%` when `title` is held, then
`Item.is_active == is_active` when `is_active` is held. -/
def ItemFilterParams.apply (fp : ItemFilterParams) (q : SelectQ Item) : SelectQ Item :=
  let q1 :=
    match fp.title with
    | none => q
    | some t => { q with preds := q.preds ++ [fun r => ilikeContains r.title t] }
  match fp.is_active with
  | none => q1
  | some b => { q1 with preds := q1.preds ++ [fun r => r.is_active == some b] }

/-- Helper naming the optional filter step of `get_multi`. -/
def applyFiltersOpt (filters : Option ItemFilterParams) (q : SelectQ Item) : SelectQ Item :=
  match filters with
  | some fp => fp.apply q
  | none => q

/-- Helper naming the optional sort step of `get_multi`. -/
def applySortOpt (sort : Option ItemSortParams) (q : SelectQ Item) : SelectQ Item :=
  match sort with
  | some sp => sp.toSortParams.apply q itemModel
  | none => q

namespace ItemService

/-- `ItemService.get`: the row whose primary key equals `item_id`, or
absence. -/
def get (db : List Item) (item_id : Nat) : Option Item :=
  db.find? (fun r => r.id == item_id)

/-- `ItemService.get_multi`: starts from `select(Item)`, applies the filters
when given, then the sort when given; with pagination it delegates to
`paginate`, and without it executes the query directly and reports
`(items, len(items))`. -/
def get_multi (db : List Item) (pagination : Option PaginationParams)
    (filters : Option ItemFilterParams) (sort : Option ItemSortParams) :
    List Item × Nat :=
  let query := SelectQ.base Item
  let query :=
    match filters with
    | some fp => fp.apply query
    | none => query
  let query :=
    match sort with
    | some sp => sp.toSortParams.apply query itemModel
    | none => query
  match pagination with
  | some p => paginate itemModel db query p
  | none =>
    let items := runSelect itemModel query db
    (items, items.length)

end ItemService

/-- A field of an update payload: either absent from the request body or
explicitly given (possibly given as an explicit `null`). -/
inductive Updatable (α : Type) where
  | unset
  | set (v : α)
deriving DecidableEq, Repr

/-- `ItemUpdate` of `src/app/items/schemas.py`: every field optional, each
distinguishing unset from an explicit value or explicit `null`. -/
structure ItemUpdate where
  title : Updatable (Option String)
  description : Updatable (Option String)
  is_active : Updatable (Option Bool)
deriving DecidableEq, Repr

/-- Pydantic validation of an `ItemUpdate` body:
`title: str | None = Field(None, min_length=1, max_length=255)` applies the
length bounds only when a string is given; an explicit `null` title
validates against the `None` branch of the type. -/
def ItemUpdate.validate (title : Updatable (Option String))
    (description : Updatable (Option String)) (is_active : Updatable (Option Bool)) :
    Except ValidationError ItemUpdate :=
  match title with
  | .set (some t) =>
    if 1 ≤ t.length ∧ t.length ≤ 255 then
      .ok ⟨title, description, is_active⟩
    else
      .error .validationError
  | _ => .ok ⟨title, description, is_active⟩

/-- The update loop of `ItemService.update`:
`item_in.model_dump(exclude_unset=True)` yields exactly the explicitly
given fields, and `setattr` assigns each of them, explicit `null`
included. -/
def applyUpdateData (u : ItemUpdate) (it : Item) : Item :=
  let it1 :=
    match u.title with
    | .unset => it
    | .set v => { it with title := v }
  let it2 :=
    match u.description with
    | .unset => it1
    | .set v => { it1 with description := v }
  match u.is_active with
  | .unset => it2
  | .set v => { it2 with is_active := v }

/-- Modelled from the spec: `app/models/base.py` (the `TimestampMixin`
providing `created_at`/`updated_at`) is not under `src/`; the spec states
that `updated_at` is a system-assigned timestamp refreshed on every
mutation, so committing a mutated row stamps it with the current time. -/
def refreshUpdatedAt (now : Nat) (it : Item) : Item :=
  { it with updated_at := now }

namespace ItemService

/-- `ItemService.update`: fetch by id; absence propagates as `None` with the
table unchanged; otherwise every explicitly given field is assigned, the
commit refreshes `updated_at`, and the updated row is persisted and
returned. -/
def update (db : List Item) (item_id : Nat) (item_in : ItemUpdate) (now : Nat) :
    List Item × Option Item :=
  match db.find? (fun r => r.id == item_id) with
  | none => (db, none)
  | some it =>
    let it2 := refreshUpdatedAt now (applyUpdateData item_in it)
    (db.map (fun r => if r.id == item_id then it2 else r), some it2)

/-- `ItemService.delete`: fetch by id; absence yields `false` with the table
unchanged; otherwise the row with that primary key is deleted and the
commit is acknowledged with `true`. -/
def delete (db : List Item) (item_id : Nat) : List Item × Bool :=
  match db.find? (fun r => r.id == item_id) with
  | none => (db, false)
  | some _ => (db.filter (fun r => !(r.id == item_id)), true)

end ItemService

/-- A sample stored row. -/
def itemA : Item :=
  { id := 1, title := some "Apple", description := some "fruit"
    is_active := some true, created_at := 10, updated_at := 10 }

/-- A second sample stored row. -/
def itemB : Item :=
  { id := 2, title := some "Banana", description := none
    is_active := some false, created_at := 11, updated_at := 11 }

/-- A sample table. -/
def dbAB : List Item := [itemA, itemB]

theorem orderRows_length (model : ModelMeta α) (dirs : List (String × Bool)) (rows : List α) :
    (orderRows model dirs rows).length = rows.length := by
  cases dirs <;> simp [orderRows, List.length_mergeSort]

theorem orderRows_nil (model : ModelMeta α) (dirs : List (String × Bool)) :
    orderRows model dirs ([] : List α) = [] := by
  cases dirs <;> simp [orderRows]

theorem applyWindow_some_length_le (off l : Nat) (rows : List α) :
    (applyWindow off (some l) rows).length ≤ l := by
  simp [applyWindow, List.length_take]

theorem applyWindow_eq_nil_of_le (off : Nat) (lim : Option Nat) (rows : List α)
    (h : rows.length ≤ off) : applyWindow off lim rows = [] := by
  cases lim <;> simp [applyWindow, List.drop_eq_nil_of_le h]

theorem runSelect_length_le_of_lim (model : ModelMeta α) (q : SelectQ α) (db : List α)
    (l : Nat) (hlim : q.lim = some l) : (runSelect model q db).length ≤ l := by
  unfold runSelect
  rw [hlim]
  exact applyWindow_some_length_le _ _ _

theorem runSelect_length_of_nowindow (model : ModelMeta α) (q : SelectQ α) (db : List α)
    (hoff : q.off = 0) (hlim : q.lim = none) :
    (runSelect model q db).length = (db.filter (matchesPreds q)).length := by
  unfold runSelect
  rw [hoff, hlim]
  simp [applyWindow, orderRows_length]

theorem runSelect_eq_nil_of_off_ge (model : ModelMeta α) (q : SelectQ α) (db : List α)
    (h : (db.filter (matchesPreds q)).length ≤ q.off) : runSelect model q db = [] := by
  unfold runSelect
  exact applyWindow_eq_nil_of_le _ _ _ (by rw [orderRows_length]; exact h)

theorem paginate_total_eq (model : ModelMeta α) (db : List α) (q : SelectQ α)
    (p : PaginationParams) (hoff : q.off = 0) (hlim : q.lim = none) :
    (paginate model db q p).2 = (db.filter (matchesPreds q)).length := by
  show countSubquery model q db = _
  unfold countSubquery
  exact runSelect_length_of_nowindow model q db hoff hlim

/-- C1: for every base query (one with no window of its own, as every caller
builds) and every valid pagination specification, `paginate` returns
`(items, total)` with `items.length ≤ limit = page_size` and `total` the
count of all rows matching the query's predicates, unaffected by the
offset/limit window that `paginate` applies. -/
theorem paginate_window_bound_and_total (model : ModelMeta α) (db : List α) (q : SelectQ α)
    (p : PaginationParams) (hp : p.Valid) (hoff : q.off = 0) (hlim : q.lim = none) :
    (paginate model db q p).1.length ≤ p.limit ∧
    p.limit = p.page_size ∧
    (paginate model db q p).2 = (db.filter (matchesPreds q)).length := by
  refine ⟨?_, rfl, paginate_total_eq model db q p hoff hlim⟩
  show (runSelect model { q with off := p.skip, lim := some p.limit } db).length ≤ p.limit
  exact runSelect_length_le_of_lim model { q with off := p.skip, lim := some p.limit } db
    p.limit rfl

/-- Witness for C1 at a concrete table and query. -/
theorem paginate_window_bound_and_total_witness :
    (paginate itemModel dbAB (SelectQ.base Item) ⟨1, 1⟩).1.length ≤
      (PaginationParams.mk 1 1).limit ∧
    (PaginationParams.mk 1 1).limit = (PaginationParams.mk 1 1).page_size ∧
    (paginate itemModel dbAB (SelectQ.base Item) ⟨1, 1⟩).2 =
      (dbAB.filter (matchesPreds (SelectQ.base Item))).length :=
  paginate_window_bound_and_total itemModel dbAB (SelectQ.base Item) ⟨1, 1⟩
    (by decide) rfl rfl

/-- C2: constructing `PaginationParams` fails with a `ValidationError`
exactly when `page < 1` or `page_size` lies outside `[1, 100]`, and every
successfully constructed value has `skip = (page - 1) * page_size` and
`limit = page_size`, derived purely. -/
theorem paginationParams_validation_and_derived (page page_size : Int) :
    (PaginationParams.validate page page_size = .error .validationError ↔
      page < 1 ∨ page_size < 1 ∨ 100 < page_size) ∧
    (∀ p, PaginationParams.validate page page_size = .ok p →
      (p.page : Int) = page ∧ (p.page_size : Int) = page_size ∧
      (p.skip : Int) = (page - 1) * page_size ∧ (p.limit : Int) = page_size) := by
  unfold PaginationParams.validate
  by_cases h : 1 ≤ page ∧ 1 ≤ page_size ∧ page_size ≤ 100
  · rw [if_pos h]
    constructor
    · constructor
      · intro hcontra
        exact absurd hcontra (by simp)
      · intro hcontra
        omega
    · intro p hp
      injection hp with hp
      subst hp
      have h1 : ((page.toNat - 1 : Nat) : Int) = page - 1 := by omega
      have h2 : ((page_size.toNat : Nat) : Int) = page_size := by omega
      have h3 : ((page.toNat : Nat) : Int) = page := by omega
      refine ⟨h3, h2, ?_, h2⟩
      show (((page.toNat - 1) * page_size.toNat : Nat) : Int) = (page - 1) * page_size
      rw [Nat.cast_mul, h1, h2]
  · rw [if_neg h]
    constructor
    · constructor
      · intro _
        omega
      · intro _
        rfl
    · intro p hp
      exact absurd hp (by simp)

/-- Witness for C2 at `page = 3`, `page_size = 10`. -/
theorem paginationParams_validation_and_derived_witness :
    ((PaginationParams.mk 3 10).page : Int) = 3 ∧
    ((PaginationParams.mk 3 10).page_size : Int) = 10 ∧
    ((PaginationParams.mk 3 10).skip : Int) = (3 - 1) * 10 ∧
    ((PaginationParams.mk 3 10).limit : Int) = 10 :=
  (paginationParams_validation_and_derived 3 10).2 ⟨3, 10⟩ rfl

/-- C3: `PagedResponse.create` computes
`total_pages = (total + page_size - 1) / page_size`, which is the ceiling
of `total / page_size` (stated both as Mathlib ceiling division and by the
Galois characterization of ceiling); `total = 0` gives `total_pages = 0`,
and a paged result whose `total` is `0` came from an empty item window. -/
theorem pagedResponse_total_pages_ceil (items : List α) (total : Nat)
    (p : PaginationParams) (hp : p.Valid) :
    (PagedResponse.create items total p).total_pages = total ⌈/⌉ p.page_size ∧
    (∀ c, (PagedResponse.create items total p).total_pages ≤ c ↔ total ≤ p.page_size * c) ∧
    (total = 0 → (PagedResponse.create items total p).total_pages = 0) ∧
    (∀ (β : Type) (model : ModelMeta β) (db : List β) (q : SelectQ β) (itemsP : List β),
      q.off = 0 → q.lim = none → paginate model db q p = (itemsP, 0) → itemsP = []) := by
  have hps : 0 < p.page_size := hp.2.1
  refine ⟨rfl, ?_, ?_, ?_⟩
  · intro c
    show (total + p.page_size - 1) / p.page_size ≤ c ↔ total ≤ p.page_size * c
    rw [Nat.div_le_iff_le_mul_add_pred hps]
    omega
  · intro h0
    subst h0
    show (0 + p.page_size - 1) / p.page_size = 0
    apply Nat.div_eq_of_lt
    omega
  · intro β model db q itemsP hoff hlim hpag
    have htot : (paginate model db q p).2 = 0 := by rw [hpag]
    have hitems : (paginate model db q p).1 = itemsP := by rw [hpag]
    rw [paginate_total_eq model db q p hoff hlim] at htot
    rw [← hitems]
    show runSelect model { q with off := p.skip, lim := some p.limit } db = []
    have hfil : db.filter (matchesPreds { q with off := p.skip, lim := some p.limit }) = [] :=
      List.length_eq_zero.mp htot
    unfold runSelect
    rw [hfil, orderRows_nil]
    exact applyWindow_eq_nil_of_le _ _ _ (by simp)

/-- Witness for C3 at concrete totals and pagination. -/
theorem pagedResponse_total_pages_ceil_witness :
    (PagedResponse.create ([] : List Item) 5 ⟨1, 2⟩).total_pages = 5 ⌈/⌉ 2 ∧
    ((PagedResponse.create ([] : List Item) 5 ⟨1, 2⟩).total_pages ≤ 3 ↔ 5 ≤ 2 * 3) ∧
    (PagedResponse.create ([] : List Item) 0 ⟨1, 2⟩).total_pages = 0 ∧
    ([] : List Item) = [] := by
  have h5 := pagedResponse_total_pages_ceil ([] : List Item) 5 ⟨1, 2⟩ (by decide)
  have h0 := pagedResponse_total_pages_ceil ([] : List Item) 0 ⟨1, 2⟩ (by decide)
  exact ⟨h5.1, h5.2.1 3, h0.2.2.1 rfl,
    h0.2.2.2 Item itemModel [] (SelectQ.base Item) [] rfl rfl rfl⟩

theorem le_ceil_mul (total ps : Nat) (hps : 0 < ps) :
    total ≤ ((total + ps - 1) / ps) * ps := by
  have h : total + ps - 1 < ((total + ps - 1) / ps + 1) * ps :=
    (Nat.div_lt_iff_lt_mul hps).mp (Nat.lt_succ_self _)
  have h2 : ((total + ps - 1) / ps + 1) * ps = ((total + ps - 1) / ps) * ps + ps := by
    ring
  rw [h2] at h
  generalize ((total + ps - 1) / ps) * ps = m at h ⊢
  omega

/-- C6: when the requested page lies beyond `total_pages` (so the offset is
at least the number of matching rows), `paginate` returns an empty item
list while `total` is still the full count of matching rows. -/
theorem paginate_beyond_last_page (model : ModelMeta α) (db : List α) (q : SelectQ α)
    (p : PaginationParams) (hp : p.Valid) (hoff : q.off = 0) (hlim : q.lim = none)
    (hbeyond : ((db.filter (matchesPreds q)).length + p.page_size - 1) / p.page_size < p.page) :
    (paginate model db q p).1 = [] ∧
    (paginate model db q p).2 = (db.filter (matchesPreds q)).length := by
  have hps : 0 < p.page_size := hp.2.1
  refine ⟨?_, paginate_total_eq model db q p hoff hlim⟩
  show runSelect model { q with off := p.skip, lim := some p.limit } db = []
  apply runSelect_eq_nil_of_off_ge
  show (db.filter (matchesPreds q)).length ≤ (p.page - 1) * p.page_size
  set total := (db.filter (matchesPreds q)).length with htotal
  have h1 : total ≤ ((total + p.page_size - 1) / p.page_size) * p.page_size :=
    le_ceil_mul total p.page_size hps
  have h2 : ((total + p.page_size - 1) / p.page_size) * p.page_size ≤
      (p.page - 1) * p.page_size :=
    Nat.mul_le_mul_right p.page_size (by omega)
  exact le_trans h1 h2

/-- Witness for C6: page 2 of size 5 over a 2-row table. -/
theorem paginate_beyond_last_page_witness :
    (paginate itemModel dbAB (SelectQ.base Item) ⟨2, 5⟩).1 = [] ∧
    (paginate itemModel dbAB (SelectQ.base Item) ⟨2, 5⟩).2 =
      (dbAB.filter (matchesPreds (SelectQ.base Item))).length :=
  paginate_beyond_last_page itemModel dbAB (SelectQ.base Item) ⟨2, 5⟩
    (by decide) rfl rfl (by decide)

theorem filterParams_apply_of_unrecognized (fields : List (String × Option FieldVal))
    (model : ModelMeta α) (q : SelectQ α)
    (hf : ∀ nv, nv ∈ fields → nv.1 ∉ model.fields) :
    FilterParams.apply ⟨fields⟩ q model = q := by
  induction fields generalizing q with
  | nil => rfl
  | cons nv rest ih =>
    have hstep : FilterParams.apply ⟨nv :: rest⟩ q model = FilterParams.apply ⟨rest⟩ q model := by
      unfold FilterParams.apply
      cases hv : nv.2 with
      | none => simp only [List.foldl_cons, hv]
      | some v =>
        simp only [List.foldl_cons, hv]
        rw [if_neg (hf nv (List.mem_cons_self nv rest))]
    rw [hstep]
    exact ih q (fun mv hmv => hf mv (List.mem_cons_of_mem nv hmv))

/-- C4: a sort specification whose `sort_by` is unset or names no attribute
of the target model leaves the query unmodified, and a filter specification
all of whose held field names are absent from the target model leaves the
query unmodified; neither raises an error. -/
theorem silent_skip_sort_and_filter (model : ModelMeta α) (q : SelectQ α)
    (sp : SortParams) (fp : FilterParams)
    (hs : ∀ name, sp.sort_by = some name → name ∉ model.fields)
    (hf : ∀ nv, nv ∈ fp.fields → nv.1 ∉ model.fields) :
    sp.apply q model = q ∧ fp.apply q model = q := by
  constructor
  · unfold SortParams.apply
    cases hsb : sp.sort_by with
    | none => rfl
    | some name =>
      have hni : ¬(name ≠ "" ∧ name ∈ model.fields) := fun h => hs name hsb h.2
      simp [hni]
  · exact filterParams_apply_of_unrecognized fp.fields model q hf

/-- Witness for C4: an unknown sort field and an unknown filter field on the
Item model. -/
theorem silent_skip_sort_and_filter_witness :
    SortParams.apply { sort_by := some "nosuch", sort_order := SortOrder.asc }
      (SelectQ.base Item) itemModel = SelectQ.base Item ∧
    FilterParams.apply ⟨[("bogus", some (FieldVal.vInt 1))]⟩
      (SelectQ.base Item) itemModel = SelectQ.base Item := by
  apply silent_skip_sort_and_filter
  · intro name h
    injection h with h
    subst h
    decide
  · intro nv hmem
    rw [List.mem_singleton] at hmem
    subst hmem
    decide

/-- C5: `get_multi` builds its query by applying the filter step and then
the sort step, in that order, to the base query; with pagination supplied
it delegates to `paginate` on that query; without pagination it returns all
matching rows with `total = items.length` and runs no count query; with
filters and sort both omitted the query gains no predicate and no
ordering, so all rows come back in table order. -/
theorem get_multi_composition (db : List Item) (filters : Option ItemFilterParams)
    (sort : Option ItemSortParams) :
    (∀ p, ItemService.get_multi db (some p) filters sort =
      paginate itemModel db (applySortOpt sort (applyFiltersOpt filters (SelectQ.base Item))) p) ∧
    (ItemService.get_multi db none filters sort).2 =
      (ItemService.get_multi db none filters sort).1.length ∧
    (ItemService.get_multi db none filters sort).1 =
      runSelect itemModel (applySortOpt sort (applyFiltersOpt filters (SelectQ.base Item))) db ∧
    ItemService.get_multi db none none none = (db, db.length) := by
  refine ⟨fun p => rfl, rfl, rfl, ?_⟩
  have hrun : runSelect itemModel (SelectQ.base Item) db = db := by
    unfold runSelect orderRows applyWindow
    simp [matchesPreds, SelectQ.base]
  show (runSelect itemModel (SelectQ.base Item) db,
    (runSelect itemModel (SelectQ.base Item) db).length) = (db, db.length)
  rw [hrun]

/-- C7 counterexample: a generic `SortParams` constructed without a
`sort_order` defaults to ascending, not descending. -/
theorem sortParams_default_order_counterexample :
    ({ sort_by := none } : SortParams).sort_order = SortOrder.asc ∧
    SortOrder.asc ≠ SortOrder.desc := by
  exact ⟨rfl, by decide⟩

/-- C7 amended: the generic `SortParams` defaults `sort_order` to ascending;
the entity-specific `ItemSortParams` is the type whose defaults are
descending order on `created_at`. -/
theorem sortParams_default_order_amended :
    ({ sort_by := none } : SortParams).sort_order = SortOrder.asc ∧
    ({} : ItemSortParams).sort_order = SortOrder.desc ∧
    ({} : ItemSortParams).sort_by = some "created_at" :=
  ⟨rfl, rfl, rfl⟩

/-- C8: `update` on an unknown id returns absence and leaves the table
unchanged; on a found row it assigns exactly the fields present in the
partial input (absent fields keep their stored values), refreshes
`updated_at`, and persists the updated row; `id` and `created_at` never
change. -/
theorem update_partial_frame (db : List Item) (item_id : Nat) (u : ItemUpdate) (now : Nat) :
    (ItemService.get db item_id = none → ItemService.update db item_id u now = (db, none)) ∧
    (∀ it it2, ItemService.get db item_id = some it →
      (ItemService.update db item_id u now).2 = some it2 →
      (ItemService.update db item_id u now).1 =
        db.map (fun r => if r.id == item_id then it2 else r) ∧
      it2.updated_at = now ∧
      it2.id = it.id ∧
      it2.created_at = it.created_at ∧
      (u.title = .unset → it2.title = it.title) ∧
      (∀ v, u.title = .set v → it2.title = v) ∧
      (u.description = .unset → it2.description = it.description) ∧
      (∀ v, u.description = .set v → it2.description = v) ∧
      (u.is_active = .unset → it2.is_active = it.is_active) ∧
      (∀ v, u.is_active = .set v → it2.is_active = v)) := by
  constructor
  · intro h
    unfold ItemService.get at h
    unfold ItemService.update
    rw [h]
  · intro it it2 hget hupd
    unfold ItemService.get at hget
    unfold ItemService.update at hupd ⊢
    rw [hget] at hupd ⊢
    simp only [Option.some.injEq] at hupd
    subst hupd
    rcases u with ⟨t, d, a⟩
    cases t <;> cases d <;> cases a <;>
      simp [applyUpdateData, refreshUpdatedAt]

/-- The row `itemA` after the update applied in the C8 witness. -/
def itemAUpd : Item :=
  { id := 1, title := some "Apricot", description := some "fruit"
    is_active := some true, created_at := 10, updated_at := 42 }

/-- The title-only partial input used in the C8 witness. -/
def titleOnlyUpdate : ItemUpdate :=
  { title := .set (some "Apricot"), description := .unset, is_active := .unset }

/-- Witness for C8: updating only the title of `itemA` leaves description
and activity unchanged and stamps `updated_at`. -/
theorem update_partial_frame_witness :
    (ItemService.update dbAB 1 titleOnlyUpdate 42).1 =
      dbAB.map (fun r => if r.id == 1 then itemAUpd else r) ∧
    itemAUpd.updated_at = 42 ∧
    itemAUpd.title = some "Apricot" ∧
    itemAUpd.description = itemA.description ∧
    itemAUpd.is_active = itemA.is_active := by
  have h := (update_partial_frame dbAB 1 titleOnlyUpdate 42).2 itemA itemAUpd rfl rfl
  exact ⟨h.1, h.2.1, h.2.2.2.2.2.1 (some "Apricot") rfl,
    h.2.2.2.2.2.2.1 rfl, h.2.2.2.2.2.2.2.2.1 rfl⟩

/-- C9: an id resolving to no row makes `get` return absence (exactly when
no row in the table carries that id) and makes `delete` return `false` with
the table unchanged, raising no error; an id resolving to a row makes
`delete` return `true` after removing exactly that row. -/
theorem get_delete_absence (db : List Item) (item_id : Nat) :
    (ItemService.get db item_id = none ↔ ∀ r ∈ db, r.id ≠ item_id) ∧
    (ItemService.get db item_id = none → ItemService.delete db item_id = (db, false)) ∧
    (∀ it, ItemService.get db item_id = some it →
      (ItemService.delete db item_id).2 = true ∧
      (∀ r, r ∈ (ItemService.delete db item_id).1 ↔ r ∈ db ∧ r.id ≠ item_id)) := by
  refine ⟨?_, ?_, ?_⟩
  · unfold ItemService.get
    rw [List.find?_eq_none]
    constructor
    · intro h r hr
      have := h r hr
      simpa using this
    · intro h r hr
      simpa using h r hr
  · intro h
    unfold ItemService.get at h
    unfold ItemService.delete
    rw [h]
  · intro it hget
    unfold ItemService.get at hget
    unfold ItemService.delete
    rw [hget]
    refine ⟨rfl, ?_⟩
    intro r
    simp [List.mem_filter]

/-- Witness for C9: deleting the missing id 99 is a no-op returning
`false`; deleting id 1 returns `true` and keeps `itemB`. -/
theorem get_delete_absence_witness :
    ItemService.delete dbAB 99 = (dbAB, false) ∧
    (ItemService.delete dbAB 1).2 = true ∧
    (itemB ∈ (ItemService.delete dbAB 1).1 ↔ itemB ∈ dbAB ∧ itemB.id ≠ 1) :=
  ⟨(get_delete_absence dbAB 99).2.1 rfl,
   ((get_delete_absence dbAB 1).2.2 itemA rfl).1,
   ((get_delete_absence dbAB 1).2.2 itemA rfl).2 itemB⟩

/-- C10: the update schema distinguishes an omitted field from an explicit
null: an explicit null title passes `ItemUpdate` validation and is then
assigned to the entity (creation-time non-emptiness is not re-enforced),
an explicit null description clears the stored description, and an omitted
title gives a different outcome than an explicit null one whenever a title
is stored. -/
theorem update_explicit_null_semantics (it : Item) (now : Nat) :
    ItemUpdate.validate (.set none) .unset .unset =
      .ok ⟨.set none, .unset, .unset⟩ ∧
    (refreshUpdatedAt now (applyUpdateData ⟨.set none, .unset, .unset⟩ it)).title = none ∧
    (refreshUpdatedAt now (applyUpdateData ⟨.unset, .set none, .unset⟩ it)).description =
      none ∧
    (refreshUpdatedAt now (applyUpdateData ⟨.unset, .set none, .unset⟩ it)).title =
      it.title ∧
    (applyUpdateData ⟨.unset, .unset, .unset⟩ it).title = it.title ∧
    (it.title ≠ none →
      (applyUpdateData ⟨.unset, .unset, .unset⟩ it).title ≠
        (applyUpdateData ⟨.set none, .unset, .unset⟩ it).title) := by
  refine ⟨rfl, rfl, rfl, rfl, rfl, ?_⟩
  intro h
  simpa [applyUpdateData] using h

/-- Witness for C10 on the stored row `itemA`. -/
theorem update_explicit_null_semantics_witness :
    ItemUpdate.validate (.set none) .unset .unset =
      .ok ⟨.set none, .unset, .unset⟩ ∧
    (applyUpdateData ⟨.unset, .unset, .unset⟩ itemA).title ≠
      (applyUpdateData ⟨.set none, .unset, .unset⟩ itemA).title :=
  ⟨(update_explicit_null_semantics itemA 7).1,
   (update_explicit_null_semantics itemA 7).2.2.2.2.2 (by decide)⟩
